import Mathlib

/-!
Verification of the label rendering & pagination engine of the barcode
generator (`src/main.py`) against its natural-language specification.

The Python source is shallowly embedded: pure string manipulation becomes
Lean functions on `String`/`List Char`, the float arithmetic of the font
scaling becomes exact `ℚ` arithmetic (Python's `int()` on the positive
values involved is `Int.floor`), and the geometric layout of a composed
label becomes a record of placements.  Text-width measurement is performed
by the PIL library in the source, so measured widths appear as explicit
parameters.  `str.upper`, `str.isdigit`, `str.split` are modelled on the
ASCII subset actually exercised by the program.
-/

/-! ### Tokenisation (Python `str.split()` with no argument)

`"  a  b ".split()` splits on runs of whitespace and never yields empty
tokens; `splitTokens` reproduces that behaviour on the character list. -/

def splitTokensAux : List Char → List Char → List String
  | [], acc => if acc.isEmpty then [] else [String.mk acc.reverse]
  | c :: cs, acc =>
      if c.isWhitespace then
        if acc.isEmpty then splitTokensAux cs []
        else String.mk acc.reverse :: splitTokensAux cs []
      else splitTokensAux cs (c :: acc)

def splitTokens (s : String) : List String :=
  splitTokensAux s.toList []

/-- Python `' '.join(parts)`. -/
def joinSpace : List String → String
  | [] => ""
  | [p] => p
  | p :: ps => p ++ " " ++ joinSpace ps

/-- Python `s.upper()` (ASCII). -/
def upperStr (s : String) : String :=
  String.mk (s.toList.map Char.toUpper)

/-- `main.py` line 41: `'+' in part and any(char.isdigit() for char in part)` —
the test for a storage-capacity specifier token such as `64+3`. -/
def isSpec (part : String) : Bool :=
  part.toList.contains '+' && part.toList.any (fun c => c.isDigit)

/-- The loop of `main.py` lines 40-44: `color_start_index` starts at 0 and is
set to `i + 1` for the first token index `i` whose token is a specifier. -/
def colorStartIndex : List String → Nat → Nat
  | [], _ => 0
  | p :: ps, i => if isSpec p then i + 1 else colorStartIndex ps (i + 1)

/-- Index of the first specifier token, if any (used to state the claims). -/
def firstSpecIdx? : List String → Option Nat
  | [] => none
  | p :: ps => if isSpec p then some 0 else (firstSpecIdx? ps).map (· + 1)

/-- `BarcodeGenerator.extract_color_from_product`, `main.py` lines 25-58,
transcribed guard for guard.  Python's falsy test on a string is the
emptiness test, the placeholder is the literal `"nan"`, and `parts[-2:]`
on a list of length ≥ 2 is `drop (length - 2)`. -/
def extract_color_from_product (product_string : String) : String :=
  if product_string = "" ∨ product_string = "nan" then "Unknown Color"
  else if (splitTokens product_string).length < 2 then "Unknown Color"
  else if 0 < colorStartIndex (splitTokens product_string) 0 ∧
          colorStartIndex (splitTokens product_string) 0 < (splitTokens product_string).length then
    if joinSpace ((splitTokens product_string).drop
          (colorStartIndex (splitTokens product_string) 0)) ≠ "" then
      upperStr (joinSpace ((splitTokens product_string).drop
          (colorStartIndex (splitTokens product_string) 0)))
    else "Unknown Color"
  else if 2 ≤ (splitTokens product_string).length then
    upperStr (joinSpace ((splitTokens product_string).drop
        ((splitTokens product_string).length - 2)))
  else "Unknown Color"

/-- The reference definition of the extractor exactly as the specification
(§4.1) words it: first specifier token found by a left-to-right scan, result
is every token strictly after it joined and upper-cased; last two tokens
when no specifier exists; sentinel on empty/placeholder/fewer-than-two-token
inputs.  Written from the spec's words, to be compared with
`extract_color_from_product`. -/
def ref_extract_color (s : String) : String :=
  if s = "" ∨ s = "nan" ∨ (splitTokens s).length < 2 then "Unknown Color"
  else
    match firstSpecIdx? (splitTokens s) with
    | some i => upperStr (joinSpace ((splitTokens s).drop (i + 1)))
    | none => upperStr (joinSpace ((splitTokens s).drop ((splitTokens s).length - 2)))

/-- The reference definition amended by the one corner the code decides
differently: when the first specifier token is the *final* token, the
last-two-token fallback applies instead of the empty join. -/
def ref_extract_color_amended (s : String) : String :=
  if s = "" ∨ s = "nan" ∨ (splitTokens s).length < 2 then "Unknown Color"
  else
    match firstSpecIdx? (splitTokens s) with
    | some i =>
        if i + 1 < (splitTokens s).length then
          upperStr (joinSpace ((splitTokens s).drop (i + 1)))
        else upperStr (joinSpace ((splitTokens s).drop ((splitTokens s).length - 2)))
    | none => upperStr (joinSpace ((splitTokens s).drop ((splitTokens s).length - 2)))

example : splitTokens "SMART 8 64+3 SHINY GOLD" = ["SMART", "8", "64+3", "SHINY", "GOLD"] := by decide
example : extract_color_from_product "SMART 8 64+3 SHINY GOLD" = "SHINY GOLD" := by decide
example : extract_color_from_product "HOT 60 Pro+ 256+8 SLEEK BLACK" = "SLEEK BLACK" := by decide
example : extract_color_from_product "" = "Unknown Color" := by decide
example : extract_color_from_product "nan" = "Unknown Color" := by decide
example : extract_color_from_product "SMART 8 64+3" = "8 64+3" := by decide
example : ref_extract_color "SMART 8 64+3" = "" := by decide
example : ref_extract_color_amended "SMART 8 64+3" = "8 64+3" := by decide
example : extract_color_from_product "lower case teal" = "CASE TEAL" := by decide

/-! ### Facts about the tokenizer and the extractor -/

theorem data_append (a b : String) : (a ++ b).data = a.data ++ b.data := rfl

/-- `splitTokensAux` never emits an empty token (Python `split()` drops them). -/
theorem tokens_aux_ne_empty : ∀ (cs acc : List Char) (t : String),
    t ∈ splitTokensAux cs acc → t ≠ "" := by
  intro cs
  induction cs with
  | nil =>
      intro acc t ht
      simp only [splitTokensAux] at ht
      split at ht
      · simp at ht
      · next hacc =>
          simp only [List.mem_singleton] at ht
          subst ht
          intro h
          have h2 : acc.reverse = [] := congrArg String.data h
          have h3 : acc = [] := List.reverse_eq_nil_iff.mp h2
          simp [h3] at hacc
  | cons c cs ih =>
      intro acc t ht
      simp only [splitTokensAux] at ht
      split at ht
      · split at ht
        · exact ih [] t ht
        · next hacc =>
            rcases List.mem_cons.mp ht with h | h
            · subst h
              intro h
              have h2 : acc.reverse = [] := congrArg String.data h
              have h3 : acc = [] := List.reverse_eq_nil_iff.mp h2
              simp [h3] at hacc
            · exact ih [] t h
      · exact ih (c :: acc) t ht

theorem tokens_ne_empty {s : String} {t : String} (h : t ∈ splitTokens s) : t ≠ "" :=
  tokens_aux_ne_empty s.toList [] t h

/-- `' '.join` of a list headed by a nonempty token is nonempty. -/
theorem joinSpace_cons_ne_empty (t : String) (ts : List String) (ht : t ≠ "") :
    joinSpace (t :: ts) ≠ "" := by
  cases ts with
  | nil => simpa [joinSpace] using ht
  | cons u us =>
      simp only [joinSpace]
      intro h
      have h2 : (t ++ " " ++ joinSpace (u :: us)).data = ([] : List Char) := by rw [h]
      rw [data_append, data_append] at h2
      rcases List.append_eq_nil.mp h2 with ⟨h3, _⟩
      rcases List.append_eq_nil.mp h3 with ⟨_, h5⟩
      exact absurd h5 (by decide)

/-- The loop variable of lines 38-44 when no specifier token exists. -/
theorem colorStartIndex_none : ∀ (ps : List String),
    firstSpecIdx? ps = none → ∀ n, colorStartIndex ps n = 0 := by
  intro ps
  induction ps with
  | nil => intro _ n; rfl
  | cons p ps ih =>
      intro h n
      simp only [firstSpecIdx?] at h
      cases hp : isSpec p with
      | true => rw [hp] at h; simp at h
      | false =>
          rw [hp] at h
          simp only [Bool.false_eq_true, if_false, Option.map_eq_none'] at h
          simp only [colorStartIndex, hp, Bool.false_eq_true, if_false]
          exact ih h (n + 1)

/-- The loop variable of lines 38-44 when the first specifier has index `i`. -/
theorem colorStartIndex_some : ∀ (ps : List String) (i : Nat),
    firstSpecIdx? ps = some i → ∀ n, colorStartIndex ps n = n + i + 1 := by
  intro ps
  induction ps with
  | nil => intro i h; simp [firstSpecIdx?] at h
  | cons p ps ih =>
      intro i h n
      simp only [firstSpecIdx?] at h
      cases hp : isSpec p with
      | true =>
          rw [hp] at h
          simp only [if_true] at h
          obtain rfl : (0 : Nat) = i := Option.some.inj h
          simp only [colorStartIndex, hp, if_true]
      | false =>
          rw [hp] at h
          simp only [Bool.false_eq_true, if_false, Option.map_eq_some'] at h
          rcases h with ⟨j, hj, rfl⟩
          simp only [colorStartIndex, hp, Bool.false_eq_true, if_false]
          rw [ih j hj (n + 1)]
          omega

theorem firstSpecIdx_lt : ∀ (ps : List String) (i : Nat),
    firstSpecIdx? ps = some i → i < ps.length := by
  intro ps
  induction ps with
  | nil => intro i h; simp [firstSpecIdx?] at h
  | cons p ps ih =>
      intro i h
      simp only [firstSpecIdx?] at h
      cases hp : isSpec p with
      | true =>
          rw [hp] at h
          simp only [if_true, Option.some.injEq] at h
          obtain rfl : (0 : Nat) = i := h
          exact Nat.succ_pos _
      | false =>
          rw [hp] at h
          simp only [Bool.false_eq_true, if_false, Option.map_eq_some'] at h
          rcases h with ⟨j, hj, rfl⟩
          have := ih j hj
          simp only [List.length_cons]
          omega

/-- The extractor agrees everywhere with the amended reference definition. -/
theorem extract_color_eq_amended (s : String) :
    extract_color_from_product s = ref_extract_color_amended s := by
  unfold extract_color_from_product ref_extract_color_amended
  by_cases h0 : s = "" ∨ s = "nan"
  · rw [if_pos h0, if_pos (h0.elim Or.inl (fun h => Or.inr (Or.inl h)))]
  · rw [if_neg h0]
    by_cases hlen : (splitTokens s).length < 2
    · rw [if_pos hlen, if_pos (Or.inr (Or.inr hlen))]
    · have hguard : ¬(s = "" ∨ s = "nan" ∨ (splitTokens s).length < 2) := by
        rintro (h | h | h)
        exacts [h0 (Or.inl h), h0 (Or.inr h), hlen h]
      rw [if_neg hlen, if_neg hguard]
      cases hfind : firstSpecIdx? (splitTokens s) with
      | none =>
          have hcsi : colorStartIndex (splitTokens s) 0 = 0 :=
            colorStartIndex_none _ hfind 0
          have hc : ¬(0 < colorStartIndex (splitTokens s) 0 ∧
              colorStartIndex (splitTokens s) 0 < (splitTokens s).length) := by
            rw [hcsi]
            exact fun hcon => absurd hcon.1 (lt_irrefl 0)
          rw [if_neg hc, if_pos (Nat.le_of_not_lt hlen)]
      | some i =>
          have hcsi : colorStartIndex (splitTokens s) 0 = i + 1 := by
            rw [colorStartIndex_some _ _ hfind 0]
            omega
          have hlt : i < (splitTokens s).length := firstSpecIdx_lt _ _ hfind
          by_cases hi2 : i + 1 < (splitTokens s).length
          · have hcond : 0 < colorStartIndex (splitTokens s) 0 ∧
                colorStartIndex (splitTokens s) 0 < (splitTokens s).length := by
              rw [hcsi]
              exact ⟨Nat.succ_pos i, hi2⟩
            rw [if_pos hcond, hcsi]
            have hd : (splitTokens s).drop (i + 1) ≠ [] := by
              intro hnil
              rw [List.drop_eq_nil_iff] at hnil
              omega
            obtain ⟨t, ts, hts⟩ : ∃ t ts, (splitTokens s).drop (i + 1) = t :: ts := by
              cases hcase : (splitTokens s).drop (i + 1) with
              | nil => exact absurd hcase hd
              | cons t ts => exact ⟨t, ts, rfl⟩
            have htmem : t ∈ splitTokens s := by
              have hmem : t ∈ (splitTokens s).drop (i + 1) := by
                rw [hts]; exact List.mem_cons_self t ts
              exact List.drop_subset _ _ hmem
            have hcolor : joinSpace ((splitTokens s).drop (i + 1)) ≠ "" := by
              rw [hts]
              exact joinSpace_cons_ne_empty t ts (tokens_ne_empty htmem)
            rw [if_pos hcolor]
            show _ = if i + 1 < (splitTokens s).length then
                upperStr (joinSpace ((splitTokens s).drop (i + 1)))
              else upperStr (joinSpace ((splitTokens s).drop ((splitTokens s).length - 2)))
            rw [if_pos hi2]
          · have hc : ¬(0 < colorStartIndex (splitTokens s) 0 ∧
                colorStartIndex (splitTokens s) 0 < (splitTokens s).length) := by
              rw [hcsi]
              exact fun hcon => hi2 hcon.2
            rw [if_neg hc, if_pos (Nat.le_of_not_lt hlen)]
            show _ = if i + 1 < (splitTokens s).length then
                upperStr (joinSpace ((splitTokens s).drop (i + 1)))
              else upperStr (joinSpace ((splitTokens s).drop ((splitTokens s).length - 2)))
            rw [if_neg hi2]

/-- **C1** is false as stated: the reference definition of §4.1, read
literally, maps an input whose first storage specifier is the final token to
the empty join, while `extract_color_from_product` applies the last-two-token
fallback there.  Concretely the two functions disagree at `"SMART 8 64+3"`
(code: `"8 64+3"`, reference: `""`). -/
theorem extract_color_reference_mismatch :
    ¬ (∀ s : String, extract_color_from_product s = ref_extract_color s) :=
  fun h => by have h1 := h "SMART 8 64+3"; revert h1; decide

/-- **C1 (amended)**: `extract_color_from_product` follows the reference
definition amended in one corner — when the first specifier token is the
final token, the last-two-token fallback applies instead of the empty join —
and `extractColor("SMART 8 64+3 SHINY GOLD") = "SHINY GOLD"`. -/
theorem extract_color_matches_amended_reference :
    (∀ s : String, extract_color_from_product s = ref_extract_color_amended s) ∧
      extract_color_from_product "SMART 8 64+3 SHINY GOLD" = "SHINY GOLD" :=
  ⟨extract_color_eq_amended, by decide⟩

/-- **C2** is false as stated: `"SMART 10 128+8"` has its (first) specifier
token `"128+8"` as the final token, yet the extractor returns `"10 128+8"`,
not the sentinel `"Unknown Color"`. -/
theorem extract_color_final_specifier_not_sentinel :
    firstSpecIdx? (splitTokens "SMART 10 128+8") = some 2 ∧
      (splitTokens "SMART 10 128+8").length = 3 ∧
      extract_color_from_product "SMART 10 128+8" = "10 128+8" := by decide

/-- **C2 (amended)**: for every product string with at least two tokens whose
first specifier token is the final token, the extractor returns the last two
tokens joined and upper-cased (the no-specifier fallback) — not the sentinel
and not the empty string. -/
theorem extract_color_final_specifier_fallback (s : String)
    (h : firstSpecIdx? (splitTokens s) = some ((splitTokens s).length - 1))
    (h2 : 2 ≤ (splitTokens s).length) :
    extract_color_from_product s =
      upperStr (joinSpace ((splitTokens s).drop ((splitTokens s).length - 2))) := by
  have hs1 : ¬(s = "" ∨ s = "nan") := by
    rintro (rfl | rfl)
    · revert h2; decide
    · revert h2; decide
  have hguard : ¬(s = "" ∨ s = "nan" ∨ (splitTokens s).length < 2) := by
    rintro (h1 | h1 | h1)
    exacts [hs1 (Or.inl h1), hs1 (Or.inr h1), absurd h2 (Nat.not_le_of_lt h1)]
  rw [extract_color_eq_amended]
  unfold ref_extract_color_amended
  rw [if_neg hguard, h]
  show (if (splitTokens s).length - 1 + 1 < (splitTokens s).length then
      upperStr (joinSpace ((splitTokens s).drop ((splitTokens s).length - 1 + 1)))
    else upperStr (joinSpace ((splitTokens s).drop ((splitTokens s).length - 2)))) = _
  rw [if_neg (by omega)]

/-- Witness for the amended C2 at the concrete input `"X 64+3"`. -/
theorem extract_color_final_specifier_fallback_witness :
    extract_color_from_product "X 64+3" = "X 64+3" := by
  have h := extract_color_final_specifier_fallback "X 64+3" (by decide) (by decide)
  rw [h]; decide

/-! ### Dynamic text-fit scaling (`create_barcode_label`, lines 169-224,
and identically lines 239-294 for the Box ID caption)

The widths are measured by PIL's `draw.textbbox` in the source; they enter
the model as parameters: `text_width` is the width of `"<label> <value>"`
at the base bold size 20 (`font_medium`), `label_width` the width of the
bold label at the chosen bold size, `number_width` the width of the value
at the chosen regular size.  `base_value_size` is the base regular size the
skip branch falls back to: 18 (`font_regular`) for the IMEI caption, 20
(`font_medium`) for the Box ID caption.  Python's float division becomes
exact `ℚ` division; `int()` becomes truncation toward zero. -/

/-- Python `int()` on a float value, modelled on `ℚ`. -/
def pyInt (q : ℚ) : ℤ := if 0 ≤ q then ⌊q⌋ else ⌈q⌉

/-- The two-stage caption font sizing of `create_barcode_label`: the bold
label size (`new_font_size`, line 178) and the stretched value size
(`number_font_size`, line 212).  `460 - (label_width + 5)` is
`barcode_width - (number_x - x_start)` with `number_x = x_start +
label_width + 5` (lines 201-204). -/
def caption_font_sizes (base_value_size : ℤ) (text_width label_width number_width : ℚ) :
    ℤ × ℤ :=
  let bold_size : ℤ :=
    if text_width < 460 then pyInt (16 * (460 / text_width)) else 20
  let regular_size : ℤ :=
    if text_width < 460 then pyInt (16 * (460 / text_width)) else base_value_size
  let value_size : ℤ :=
    if number_width < 460 - (label_width + 5) then
      pyInt (25 * ((460 - (label_width + 5)) / number_width))
    else regular_size
  (bold_size, value_size)

/-- **C4** is false as stated: at a combined measured width of 300 (< 460)
the code computes `int(16 * (460 / 300)) = 24`, while the claimed
`round(16 × (460 / 300))` is 25; moreover with the value stage skipped
(value width 500 ≥ available width 355) the value keeps the rescaled
regular size 24, not a base size. -/
theorem caption_font_scaling_counterexample :
    (caption_font_sizes 18 300 100 500).1 = 24 ∧
      round ((16 : ℚ) * (460 / 300)) = 25 ∧
      (caption_font_sizes 18 300 100 500).1 ≠ round ((16 : ℚ) * (460 / 300)) ∧
      (caption_font_sizes 18 300 100 500).2 = 24 := by
  have hfloor : ⌊(16 : ℚ) * (460 / 300)⌋ = 24 := by
    rw [Int.floor_eq_iff]; norm_num
  have hround : round ((16 : ℚ) * (460 / 300)) = 25 := by
    rw [round_eq, Int.floor_eq_iff]; norm_num
  have h1 : (caption_font_sizes 18 300 100 500).1 = 24 := by
    show (if (300 : ℚ) < 460 then pyInt (16 * (460 / 300)) else 20) = 24
    rw [if_pos (by norm_num : (300 : ℚ) < 460)]
    unfold pyInt
    rw [if_pos (by norm_num : (0 : ℚ) ≤ 16 * (460 / 300))]
    exact hfloor
  have h2 : (caption_font_sizes 18 300 100 500).2 = 24 := by
    show (if (500 : ℚ) < 460 - (100 + 5) then
        pyInt (25 * ((460 - (100 + 5)) / 500))
      else if (300 : ℚ) < 460 then pyInt (16 * (460 / 300)) else 18) = 24
    rw [if_neg (by norm_num : ¬(500 : ℚ) < 460 - (100 + 5)),
      if_pos (by norm_num : (300 : ℚ) < 460)]
    unfold pyInt
    rw [if_pos (by norm_num : (0 : ℚ) ≤ 16 * (460 / 300))]
    exact hfloor
  exact ⟨h1, hround, by rw [h1, hround]; decide, h2⟩

/-- **C4 (amended)**: with all widths positive, if the combined text width is
strictly below the 460-pixel target the bold label size is the *truncation*
`int(16 · 460 / text_width)` (floor, these values being positive), not the
rounding; otherwise it stays at the base bold size 20.  If the value width
is strictly below the available width `460 - (label_width + 5)` the value
size is `int(25 · available / number_width)`; otherwise the value keeps the
stage-one regular size, which equals the base regular size only when the
first stage was also skipped. -/
theorem caption_font_scaling_spec (b : ℤ) (tw lw nw : ℚ) (htw : 0 < tw) (hnw : 0 < nw) :
    ((tw < 460 → (caption_font_sizes b tw lw nw).1 = ⌊16 * 460 / tw⌋) ∧
      (460 ≤ tw → (caption_font_sizes b tw lw nw).1 = 20)) ∧
    ((nw < 460 - (lw + 5) →
        (caption_font_sizes b tw lw nw).2 = ⌊25 * (460 - (lw + 5)) / nw⌋) ∧
      (460 - (lw + 5) ≤ nw →
        (caption_font_sizes b tw lw nw).2 =
          (if tw < 460 then ⌊16 * 460 / tw⌋ else b))) := by
  have h16 : (0 : ℚ) ≤ 16 * (460 / tw) := by positivity
  refine ⟨⟨?_, ?_⟩, ?_, ?_⟩
  · intro h1
    show (if tw < 460 then pyInt (16 * (460 / tw)) else 20) = _
    rw [if_pos h1]
    unfold pyInt
    rw [if_pos h16, mul_div_assoc]
  · intro h1
    show (if tw < 460 then pyInt (16 * (460 / tw)) else 20) = 20
    rw [if_neg (not_lt.mpr h1)]
  · intro h2
    show (if nw < 460 - (lw + 5) then pyInt (25 * ((460 - (lw + 5)) / nw))
        else if tw < 460 then pyInt (16 * (460 / tw)) else b) = _
    rw [if_pos h2]
    have havail : (0 : ℚ) < 460 - (lw + 5) := lt_trans hnw h2
    have hpos : (0 : ℚ) ≤ 25 * ((460 - (lw + 5)) / nw) :=
      le_of_lt (mul_pos (by norm_num) (div_pos havail hnw))
    unfold pyInt
    rw [if_pos hpos, mul_div_assoc]
  · intro h2
    show (if nw < 460 - (lw + 5) then pyInt (25 * ((460 - (lw + 5)) / nw))
        else if tw < 460 then pyInt (16 * (460 / tw)) else b) = _
    rw [if_neg (not_lt.mpr h2)]
    by_cases h1 : tw < 460
    · rw [if_pos h1, if_pos h1]
      unfold pyInt
      rw [if_pos h16, mul_div_assoc]
    · rw [if_neg h1, if_neg h1]

/-- Witness for the amended C4 at concrete measurements. -/
theorem caption_font_scaling_spec_witness :
    (0 : ℚ) < 300 ∧ (0 : ℚ) < 500 ∧ (300 : ℚ) < 460 ∧
      (caption_font_sizes 18 300 100 500).1 = ⌊(16 : ℚ) * 460 / 300⌋ :=
  ⟨by norm_num, by norm_num, by norm_num,
    (caption_font_scaling_spec 18 300 100 500 (by norm_num) (by norm_num)).1.1
      (by norm_num)⟩

/-! ### The label composer (`BarcodeGenerator.create_barcode_label`,
lines 102-348)

The composer builds a fixed 650×300 white canvas and pastes/draws elements
at coordinates computed from constants only (the running `y_pos` is
70 → 138 → 173 → 233 → 268).  The embedding records each placed element
with its geometry; Python float arithmetic on the coordinates becomes `ℚ`.
`Image.new` fixes the canvas size and neither `paste` nor `draw` can change
it, so the recorded `width`/`height` are those of the returned image.
A `box_id` is "present" exactly when Python finds it truthy, i.e. the
string is nonempty (line 227 `if box_id:`). -/

structure Placement where
  x : ℚ
  y : ℚ
  width : ℚ
  height : ℚ

structure BoxSection where
  barcode : Placement
  data : String
  dnText : String

structure CircleSpec where
  diameter : ℚ
  strokeWidth : ℚ
  centerX : ℚ
  centerY : ℚ

structure Label where
  width : ℕ
  height : ℕ
  background : String
  modelText : String
  colorText : String
  imeiBarcode : Placement
  imeiData : String
  boxSection : Option BoxSection
  qr : Placement
  qrData : String
  circle : CircleSpec

/-- `create_barcode_label(imei, model, color, dn, box_id)`.  Constants as in
the source: `label_width = 650`, `label_height = 300`, `x_start = 30`,
barcode target box 460×60 at `y_pos = 70`; the Box ID barcode (when the
box id is truthy) lands at `y_pos = 70 + 60 + 8 + 35 = 173`; `qr_size =
150`, `qr_x_pos = 650 - 150 - 0`, `qr_y_pos = 65`; circle of diameter 40,
stroke width 2, centred at `(qr_x_pos + 150/2 + 15, 270)`. -/
def create_barcode_label (imei model color dn box_id : String) : Label :=
  { width := 650
    height := 300
    background := "white"
    modelText := model
    colorText := upperStr color
    imeiBarcode := { x := 30, y := 70, width := 460, height := 60 }
    imeiData := imei
    boxSection :=
      if box_id ≠ "" then
        some { barcode := { x := 30, y := 173, width := 460, height := 60 }
               data := box_id
               dnText := "D/N: " ++ dn }
      else none
    qr := { x := 650 - 150 - 0, y := 65, width := 150, height := 150 }
    qrData := imei
    circle :=
      { diameter := 40
        strokeWidth := 2
        centerX := (650 - 150 - 0) + 150 / 2 + 15
        centerY := 270 } }

/-- **C3**: for every valid record (imei present and not the placeholder),
the composed label is exactly 650×300 pixels with a white background. -/
theorem create_barcode_label_canvas (imei model color dn box_id : String)
    (_h : imei ≠ "" ∧ imei ≠ "nan") :
    (create_barcode_label imei model color dn box_id).width = 650 ∧
      (create_barcode_label imei model color dn box_id).height = 300 ∧
      (create_barcode_label imei model color dn box_id).background = "white" :=
  ⟨rfl, rfl, rfl⟩

/-- Witness for C3 at the first sample record of the source. -/
theorem create_barcode_label_canvas_witness :
    (create_barcode_label "359827134443046" "X6525D" "TIMBER BLACK" "M8N7"
        "355760833587361").width = 650 :=
  (create_barcode_label_canvas "359827134443046" "X6525D" "TIMBER BLACK" "M8N7"
    "355760833587361" (by decide)).1

/-- **C8** is false as stated: the matrix-code region is 150×150, encodes
only the IMEI and sits flush against the right edge, but it is *not*
vertically aligned with the top of the first barcode: the QR top is at
y = 65 (line 318) while the first barcode's top is at y = 70 (line 158). -/
theorem qr_alignment_counterexample :
    (create_barcode_label "359827134443046" "X6525D" "TIMBER BLACK" "M8N7"
        "355760833587361").qr.y = 65 ∧
      (create_barcode_label "359827134443046" "X6525D" "TIMBER BLACK" "M8N7"
        "355760833587361").imeiBarcode.y = 70 ∧
      (create_barcode_label "359827134443046" "X6525D" "TIMBER BLACK" "M8N7"
          "355760833587361").qr.y ≠
        (create_barcode_label "359827134443046" "X6525D" "TIMBER BLACK" "M8N7"
          "355760833587361").imeiBarcode.y := by
  refine ⟨rfl, rfl, ?_⟩
  show (65 : ℚ) ≠ 70
  norm_num

/-- **C8 (amended)**: on every composed label the matrix-code region is
exactly 150×150 pixels, encodes only the IMEI string, is flush against the
right edge of the 650-pixel canvas, and its top sits at y = 65 — five
pixels above the first barcode's top at y = 70 (not aligned with it). -/
theorem qr_region_spec (imei model color dn box_id : String) :
    (create_barcode_label imei model color dn box_id).qr.width = 150 ∧
      (create_barcode_label imei model color dn box_id).qr.height = 150 ∧
      (create_barcode_label imei model color dn box_id).qrData = imei ∧
      (create_barcode_label imei model color dn box_id).qr.x +
          (create_barcode_label imei model color dn box_id).qr.width =
        ((create_barcode_label imei model color dn box_id).width : ℚ) ∧
      (create_barcode_label imei model color dn box_id).qr.y = 65 ∧
      (create_barcode_label imei model color dn box_id).imeiBarcode.y = 70 ∧
      (create_barcode_label imei model color dn box_id).imeiBarcode.y -
          (create_barcode_label imei model color dn box_id).qr.y = 5 := by
  refine ⟨rfl, rfl, rfl, ?_, rfl, rfl, ?_⟩
  · show (650 - 150 - 0 : ℚ) + 150 = ((650 : ℕ) : ℚ)
    norm_num
  · show (70 : ℚ) - 65 = 5
    norm_num

/-- **C9**: the code contradicts its own inline comment (line 323,
"Perfectly centered under QR code"): the circled "A" has the claimed
40-pixel diameter and 2-pixel stroke, but its centre x is
`qr_x_pos + qr_size/2 + 15 = 590`, fifteen pixels to the right of the
QR region's horizontal midpoint 575. -/
theorem circled_a_not_centered :
    (create_barcode_label "359827134443046" "X6525D" "TIMBER BLACK" "M8N7"
        "355760833587361").circle.diameter = 40 ∧
      (create_barcode_label "359827134443046" "X6525D" "TIMBER BLACK" "M8N7"
        "355760833587361").circle.strokeWidth = 2 ∧
      (create_barcode_label "359827134443046" "X6525D" "TIMBER BLACK" "M8N7"
        "355760833587361").circle.centerX = 590 ∧
      (create_barcode_label "359827134443046" "X6525D" "TIMBER BLACK" "M8N7"
          "355760833587361").qr.x +
        (create_barcode_label "359827134443046" "X6525D" "TIMBER BLACK" "M8N7"
          "355760833587361").qr.width / 2 = 575 ∧
      (590 : ℚ) ≠ 575 := by
  refine ⟨rfl, rfl, ?_, ?_, ?_⟩
  · show (650 - 150 - 0 : ℚ) + 150 / 2 + 15 = 590
    norm_num
  · show (650 - 150 - 0 : ℚ) + 150 / 2 = 575
    norm_num
  · norm_num

/-! ### The batch driver (`BarcodeGenerator.generate_from_data`,
lines 478-522)

A `Row` carries the canonical stringified cell values after the excluded
ingestion layer has applied the column-name fallbacks and Python's `str()`
(a missing spreadsheet cell has already become the literal `"nan"`, a
missing column the default `""`).  Line 497 skips a row iff
`not imei or imei == 'nan'`; i.e. a row is processed iff its imei is
nonempty and not the placeholder. -/

structure Row where
  imei : String
  box_id : String
  model : String
  product : String
  color : String
  dn : String

/-- Line 497: the row is kept iff `imei` is truthy and not `'nan'`. -/
def validRow (r : Row) : Bool := decide (r.imei ≠ "" ∧ r.imei ≠ "nan")

/-- Lines 489-493: colour comes from the product string when that is truthy
and not the placeholder, otherwise from the colour cell. -/
def rowColor (r : Row) : String :=
  if r.product ≠ "" ∧ r.product ≠ "nan" then extract_color_from_product r.product
  else r.color

/-- Line 511: `f"barcode_label_{imei}_{index+1}.png"`. -/
def labelFilename (imei : String) (index : Nat) : String :=
  "barcode_label_" ++ imei ++ "_" ++ toString (index + 1) ++ ".png"

/-- The row loop of lines 481-519: produced `(filename, label)` pairs and
the indices of the skipped rows (the recorded diagnostics). -/
def generate_from_data : List Row → Nat → List (String × Label) × List Nat
  | [], _ => ([], [])
  | r :: rs, index =>
      let rest := generate_from_data rs (index + 1)
      if validRow r then
        ((labelFilename r.imei index,
            create_barcode_label r.imei r.model (rowColor r) r.dn r.box_id) :: rest.1,
          rest.2)
      else (rest.1, index :: rest.2)

/-- Rows paired with their `iterrows` index, starting at `index`. -/
def enumFrom : Nat → List Row → List (Nat × Row)
  | _, [] => []
  | i, r :: rs => (i, r) :: enumFrom (i + 1) rs

theorem generate_files_eq : ∀ (rows : List Row) (index : Nat),
    (generate_from_data rows index).1 =
      ((enumFrom index rows).filter (fun p => validRow p.2)).map
        (fun p => (labelFilename p.2.imei p.1,
          create_barcode_label p.2.imei p.2.model (rowColor p.2) p.2.dn p.2.box_id)) := by
  intro rows
  induction rows with
  | nil => intro index; rfl
  | cons r rs ih =>
      intro index
      cases hv : validRow r with
      | true =>
          simp only [generate_from_data, enumFrom, List.filter_cons, hv, if_true,
            List.map_cons]
          rw [ih (index + 1)]
      | false =>
          simp only [generate_from_data, enumFrom, List.filter_cons, hv,
            Bool.false_eq_true, if_false]
          rw [ih (index + 1)]

theorem generate_skipped_eq : ∀ (rows : List Row) (index : Nat),
    (generate_from_data rows index).2 =
      ((enumFrom index rows).filter (fun p => !validRow p.2)).map Prod.fst := by
  intro rows
  induction rows with
  | nil => intro index; rfl
  | cons r rs ih =>
      intro index
      cases hv : validRow r with
      | true =>
          simp only [generate_from_data, enumFrom, List.filter_cons, hv, if_true,
            Bool.not_true, Bool.false_eq_true, if_false]
          rw [ih (index + 1)]
      | false =>
          simp only [generate_from_data, enumFrom, List.filter_cons, hv,
            Bool.false_eq_true, if_false, Bool.not_false, if_true, List.map_cons]
          rw [ih (index + 1)]

/-- **C7**: the batch output is exactly the valid rows, each composed and
named, in input order — a row whose imei is missing/empty/placeholder is
excluded and its index recorded as a diagnostic, while every other valid
row of the same batch is still produced. -/
theorem generate_from_data_partial_failure (rows : List Row) (index : Nat) :
    (generate_from_data rows index).1 =
      ((enumFrom index rows).filter (fun p => validRow p.2)).map
        (fun p => (labelFilename p.2.imei p.1,
          create_barcode_label p.2.imei p.2.model (rowColor p.2) p.2.dn p.2.box_id)) ∧
      (generate_from_data rows index).2 =
        ((enumFrom index rows).filter (fun p => !validRow p.2)).map Prod.fst :=
  ⟨generate_files_eq rows index, generate_skipped_eq rows index⟩

/-- **C10**: the composer's presence test for the box id is string
truthiness, so every nonempty box id — including the `"nan"` placeholder a
missing Box ID cell turns into — produces the second barcode region
encoding that literal text, whereas a row whose *imei* is `"nan"` is
rejected by the batch driver. -/
theorem box_id_truthiness_second_barcode :
    (∀ imei model color dn box_id, box_id ≠ "" →
      (create_barcode_label imei model color dn box_id).boxSection.map
          BoxSection.data = some box_id) ∧
      (create_barcode_label "359827134443046" "X6525D" "SHINY GOLD" "M8N7"
          "nan").boxSection.map BoxSection.data = some "nan" ∧
      (∀ (r : Row) (rs : List Row) (index : Nat), r.imei = "nan" →
        generate_from_data (r :: rs) index =
          ((generate_from_data rs (index + 1)).1,
            index :: (generate_from_data rs (index + 1)).2)) := by
  refine ⟨?_, ?_, ?_⟩
  · intro imei model color dn box_id h
    show (if box_id ≠ "" then
        some (⟨⟨30, 173, 460, 60⟩, box_id, "D/N: " ++ dn⟩ : BoxSection)
      else none).map BoxSection.data = some box_id
    rw [if_pos h]
    rfl
  · rfl
  · intro r rs index h
    have hv : validRow r = false := by simp [validRow, h]
    simp only [generate_from_data, hv, Bool.false_eq_true, if_false]

/-- Witness for C10 at a concrete nonempty box id. -/
theorem box_id_truthiness_second_barcode_witness :
    (create_barcode_label "359827134443046" "X6525D" "SHINY GOLD" "M8N7"
        "355760833587361").boxSection.map BoxSection.data = some "355760833587361" :=
  box_id_truthiness_second_barcode.1 "359827134443046" "X6525D" "SHINY GOLD" "M8N7"
    "355760833587361" (by decide)

/-! ### Grid pagination (`BarcodeGenerator.create_pdf_from_barcodes`,
lines 350-435)

Lines 394-405: `images_per_page = grid_cols * grid_rows`, `total_pages =
(len + images_per_page - 1) // images_per_page`, and page `p` holds the
slice `files[p*per : min((p+1)*per, len)]` — i.e. `(files.drop (p·per)).take
per`.  Lines 410-413 place the `i`-th image of a page at grid row
`i // grid_cols`, column `i % grid_cols` (row-major).  Lines 419-425 wrap
each placement in `try/except`: an unreadable image only prints a warning.
-/

/-- The pages of the generated document: the `p`-th page holds the `p`-th
slice of `images_per_page` files. -/
def create_pdf_pages {α : Type} (files : List α) (grid_cols grid_rows : Nat) :
    List (List α) :=
  (List.range ((files.length + grid_cols * grid_rows - 1) / (grid_cols * grid_rows))).map
    fun p => (files.drop (p * (grid_cols * grid_rows))).take (grid_cols * grid_rows)

/-- Generalisation of the page slicing over the page capacity `per`. -/
def chunks {α : Type} (per : Nat) (l : List α) : List (List α) :=
  (List.range ((l.length + per - 1) / per)).map fun p => (l.drop (p * per)).take per

theorem create_pdf_pages_eq_chunks {α : Type} (files : List α) (c r : Nat) :
    create_pdf_pages files c r = chunks (c * r) files := rfl

/-- Lines 412-413: `(row, col)` of the `i`-th image placed on a page. -/
def grid_position (i grid_cols : Nat) : Nat × Nat := (i / grid_cols, i % grid_cols)

/-- Lines 419-425: drawing a page keeps the readable files (in order) and
records one warning per unreadable file; nothing escapes the handler. -/
def draw_results {α : Type} (readable : α → Bool) (files : List α)
    (grid_cols grid_rows : Nat) : List (List α × List α) :=
  (create_pdf_pages files grid_cols grid_rows).map
    fun page => (page.filter readable, page.filter fun f => !readable f)

theorem chunks_length {α : Type} (per : Nat) (l : List α) :
    (chunks per l).length = (l.length + per - 1) / per := by
  unfold chunks
  rw [List.length_map, List.length_range]

theorem chunks_cons {α : Type} (per : Nat) (hper : 0 < per) (l : List α) (hl : l ≠ []) :
    chunks per l = l.take per :: chunks per (l.drop per) := by
  have hn : 0 < l.length := List.length_pos.mpr hl
  have hk : (l.length + per - 1) / per = ((l.drop per).length + per - 1) / per + 1 := by
    rw [List.length_drop]
    rcases le_or_lt per l.length with h | h
    · have h1 : l.length + per - 1 = (l.length - per + per - 1) + per := by omega
      rw [h1, Nat.add_div_right _ hper]
    · have h1 : l.length - per = 0 := by omega
      rw [h1]
      have h2 : (l.length + per - 1) / per = 1 := by
        apply Nat.div_eq_of_lt_le
        · omega
        · omega
      have h3 : (0 + per - 1) / per = 0 := Nat.div_eq_of_lt (by omega)
      rw [h2, h3]
  unfold chunks
  rw [hk, List.range_succ_eq_map, List.map_cons]
  congr 1
  · rw [Nat.zero_mul, List.drop_zero]
  · rw [List.map_map]
    congr 1
    funext p
    show (l.drop (Nat.succ p * per)).take per = ((l.drop per).drop (p * per)).take per
    rw [Nat.succ_mul, List.drop_drop, Nat.add_comm per (p * per)]

theorem chunks_flatten {α : Type} (per : Nat) (hper : 0 < per) :
    ∀ (l : List α), (chunks per l).flatten = l := by
  have main : ∀ (n : Nat) (l : List α), l.length ≤ n → (chunks per l).flatten = l := by
    intro n
    induction n with
    | zero =>
        intro l hl
        have h0 : l = [] := List.eq_nil_of_length_eq_zero (Nat.le_zero.mp hl)
        subst h0
        have h1 : (List.length ([] : List α) + per - 1) / per = 0 := by
          simp only [List.length_nil]
          exact Nat.div_eq_of_lt (by omega)
        unfold chunks
        rw [h1]
        rfl
    | succ n ih =>
        intro l hl
        cases hl0 : l with
        | nil =>
            have h1 : (List.length ([] : List α) + per - 1) / per = 0 := by
              simp only [List.length_nil]
              exact Nat.div_eq_of_lt (by omega)
            unfold chunks
            rw [h1]
            rfl
        | cons a t =>
            rw [chunks_cons per hper _ (by simp), List.flatten_cons]
            rw [ih ((a :: t).drop per) (by
              rw [List.length_drop]
              rw [hl0] at hl
              simp only [List.length_cons] at hl ⊢
              omega)]
            exact List.take_append_drop per (a :: t)
  exact fun l => main l.length l (le_refl _)

theorem chunks_count_ge (per n : Nat) (hper : 0 < per) :
    n ≤ per * ((n + per - 1) / per) := by
  have h := Nat.div_add_mod (n + per - 1) per
  have hm := (n + per - 1).mod_lt hper
  omega

theorem chunks_count_min (per n m : Nat) (hper : 0 < per) (h : n ≤ m * per) :
    (n + per - 1) / per ≤ m := by
  rw [Nat.div_le_iff_le_mul_add_pred hper]
  have hcomm : per * m = m * per := Nat.mul_comm per m
  omega

theorem chunks_getD {α : Type} (per : Nat) (l : List α) (p : Nat)
    (hp : p < (l.length + per - 1) / per) :
    (chunks per l).getD p [] = (l.drop (p * per)).take per := by
  unfold chunks
  rw [List.getD_eq_getElem?_getD, List.getElem?_map, List.getElem?_range hp]
  rfl

theorem flatten_map_filter {α : Type} (p : α → Bool) : ∀ (L : List (List α)),
    (L.map (fun page => page.filter p)).flatten = L.flatten.filter p := by
  intro L
  induction L with
  | nil => rfl
  | cons x xs ih =>
      simp only [List.map_cons, List.flatten_cons, List.filter_append, ih]

theorem grid_position_row_major (c i j : Nat) (hij : i < j) :
    (grid_position i c).1 < (grid_position j c).1 ∨
      ((grid_position i c).1 = (grid_position j c).1 ∧
        (grid_position i c).2 < (grid_position j c).2) := by
  unfold grid_position
  simp only
  have hdiv : i / c ≤ j / c := Nat.div_le_div_right (Nat.le_of_lt hij)
  rcases Nat.lt_or_ge (i / c) (j / c) with h | h
  · exact Or.inl h
  · have heq : i / c = j / c := Nat.le_antisymm hdiv h
    refine Or.inr ⟨heq, ?_⟩
    have hi := Nat.div_add_mod i c
    have hj := Nat.div_add_mod j c
    rw [heq] at hi
    omega

/-- **C5**: the document has exactly `ceil(n / (cols·rows))` pages (stated
as the code's formula together with the ceiling's universal property),
images appear in input order (the pages flatten back to the input), every
page except the last is exactly full — a new page begins after every
`cols·rows` placements — placement within a page is row-major
(lexicographically increasing (row, col) = (i / cols, i % cols)), and 61
images on the 5×12 grid yield exactly 2 pages holding 60 and 1 images. -/
theorem create_pdf_pages_pagination :
    (∀ (α : Type) (files : List α) (grid_cols grid_rows : Nat),
        0 < grid_cols → 0 < grid_rows →
        ((create_pdf_pages files grid_cols grid_rows).length =
            (files.length + grid_cols * grid_rows - 1) / (grid_cols * grid_rows) ∧
          files.length ≤
            (create_pdf_pages files grid_cols grid_rows).length * (grid_cols * grid_rows) ∧
          (∀ m, files.length ≤ m * (grid_cols * grid_rows) →
            (create_pdf_pages files grid_cols grid_rows).length ≤ m) ∧
          (create_pdf_pages files grid_cols grid_rows).flatten = files ∧
          (∀ p, p < (create_pdf_pages files grid_cols grid_rows).length →
            ((create_pdf_pages files grid_cols grid_rows).getD p []).length =
              min (grid_cols * grid_rows) (files.length - p * (grid_cols * grid_rows))) ∧
          (∀ p, p + 1 < (create_pdf_pages files grid_cols grid_rows).length →
            ((create_pdf_pages files grid_cols grid_rows).getD p []).length =
              grid_cols * grid_rows) ∧
          (∀ i j, i < j →
            (grid_position i grid_cols).1 < (grid_position j grid_cols).1 ∨
              ((grid_position i grid_cols).1 = (grid_position j grid_cols).1 ∧
                (grid_position i grid_cols).2 < (grid_position j grid_cols).2)))) ∧
      (create_pdf_pages (List.range 61) 5 12).map List.length = [60, 1] := by
  constructor
  · intro α files c r hc hr
    have hper : 0 < c * r := Nat.mul_pos hc hr
    have hlen : (create_pdf_pages files c r).length =
        (files.length + c * r - 1) / (c * r) := by
      rw [create_pdf_pages_eq_chunks]
      exact chunks_length _ _
    refine ⟨hlen, ?_, ?_, ?_, ?_, ?_, fun i j hij => grid_position_row_major c i j hij⟩
    · rw [hlen, Nat.mul_comm]
      exact chunks_count_ge (c * r) files.length hper
    · intro m hm
      rw [hlen]
      exact chunks_count_min (c * r) files.length m hper hm
    · rw [create_pdf_pages_eq_chunks]
      exact chunks_flatten _ hper files
    · intro p hp
      rw [hlen] at hp
      rw [create_pdf_pages_eq_chunks, chunks_getD _ _ _ hp]
      rw [List.length_take, List.length_drop]
    · intro p hp
      rw [hlen] at hp
      rw [create_pdf_pages_eq_chunks, chunks_getD _ _ _ (by omega)]
      rw [List.length_take, List.length_drop]
      have hgt : (p + 1) * (c * r) < files.length := by
        by_contra hle
        push_neg at hle
        have hmin := chunks_count_min (c * r) files.length (p + 1) hper hle
        omega
      have hsucc : (p + 1) * (c * r) = p * (c * r) + c * r := Nat.succ_mul p (c * r)
      omega
  · decide

/-- Witness for C5 at 61 images on the 5×12 grid. -/
theorem create_pdf_pages_pagination_witness :
    0 < 5 ∧ 0 < 12 ∧ (create_pdf_pages (List.range 61) 5 12).flatten = List.range 61 :=
  ⟨by decide, by decide,
    (create_pdf_pages_pagination.1 Nat (List.range 61) 5 12 (by decide)
      (by decide)).2.2.2.1⟩

/-- **C6**: a file the reader cannot decode is skipped with exactly one
recorded warning and omitted from the drawn document, the remaining files
keep their order, no exception escapes (the embedding is a total function),
and the page count is still computed from *all* supplied files, so a
skipped image never reduces it. -/
theorem create_pdf_pages_skip_unreadable (readable : String → Bool)
    (files : List String) (grid_cols grid_rows : Nat)
    (hc : 0 < grid_cols) (hr : 0 < grid_rows) :
    (draw_results readable files grid_cols grid_rows).length =
        (files.length + grid_cols * grid_rows - 1) / (grid_cols * grid_rows) ∧
      ((draw_results readable files grid_cols grid_rows).map Prod.fst).flatten =
        files.filter readable ∧
      ((draw_results readable files grid_cols grid_rows).map Prod.snd).flatten =
        files.filter (fun f => !readable f) := by
  have hper : 0 < grid_cols * grid_rows := Nat.mul_pos hc hr
  refine ⟨?_, ?_, ?_⟩
  · unfold draw_results
    rw [List.length_map, create_pdf_pages_eq_chunks]
    exact chunks_length _ _
  · unfold draw_results
    rw [List.map_map]
    show ((create_pdf_pages files grid_cols grid_rows).map
        fun page => page.filter readable).flatten = _
    rw [flatten_map_filter, create_pdf_pages_eq_chunks, chunks_flatten _ hper]
  · unfold draw_results
    rw [List.map_map]
    show ((create_pdf_pages files grid_cols grid_rows).map
        fun page => page.filter fun f => !readable f).flatten = _
    rw [flatten_map_filter, create_pdf_pages_eq_chunks, chunks_flatten _ hper]

/-- Witness for C6: one unreadable file among three is dropped from the
drawn output while the others survive in order. -/
theorem create_pdf_pages_skip_unreadable_witness :
    ((draw_results (fun s => !(s == "bad")) ["a", "bad", "b"] 5 12).map
        Prod.fst).flatten = ["a", "b"] := by
  have h := create_pdf_pages_skip_unreadable (fun s => !(s == "bad"))
    ["a", "bad", "b"] 5 12 (by decide) (by decide)
  rw [h.2.1]
  decide
